import Mathlib

/-!
Verification of the batch-job lifecycle client of the repository
(skills/gemini-batch and skills/gemini-tts scripts), as a shallow
embedding in Lean 4.

The external service (`client.batches.get`, `client.files.upload`,
`client.files.download`, `client.batches.create`) is modelled by
environment parameters: a stream of fetched states for the polling loop,
a file-system predicate for local file existence, and explicit data for
downloaded/inline results.  Side effects (network calls, sleeps, file
writes, printed lines) are reified as explicit event/effect traces so
that frame and ordering claims can be stated.
-/

namespace GoogleStudioSkills

/-! ## check_status.py -/

/-- The closed terminal set of `check_status.py` (lines 54-59). -/
def completed_states : List String :=
  ["JOB_STATE_SUCCEEDED", "JOB_STATE_FAILED", "JOB_STATE_CANCELLED",
   "JOB_STATE_EXPIRED"]

/-- The state value reported by the service for a job: either an
enum-like wrapper object carrying a `name` attribute, or a bare string
(`hasattr(batch_job.state, "name")` distinguishes the two). -/
inductive StateRepr where
  | enumLike (nm : String)
  | bare (s : String)
  deriving DecidableEq, Repr

/-- The normalization applied after every job read, in
`check_status.py` lines 62-66 / 74-78 and `get_results.py` lines 55-59:
`batch_job.state.name if hasattr(batch_job.state, "name") else
str(batch_job.state)`.  (`str` on a Python string is the identity.) -/
def normalizeState : StateRepr → String
  | StateRepr.enumLike nm => nm
  | StateRepr.bare s => s

/-- Observable events of the polling loop: the `client.batches.get`
call fetching the i-th state, the evaluation of the `while` condition
(`state not in completed_states`) on the i-th fetched state, and
`time.sleep(30)`. -/
inductive PollEvent where
  | fetch (i : Nat)
  | check (i : Nat)
  | sleep
  deriving DecidableEq, Repr

/-- The `while` loop of `check_status.py` lines 68-78, given the stream
`f` of states the service reports on successive `batches.get` calls
(`f i` is the normalized state of the (i+1)-th fetch).  `fuel` bounds
the number of loop iterations so the definition is total; the result is
`none` when the loop has not exited within `fuel` iterations.  The first
component is the trace of events, the second the returned state paired
with the index of the fetch that produced it (equivalently, the number
of sleeps performed). -/
def pollLoop (f : Nat → String) : Nat → Nat → List PollEvent × Option (String × Nat)
  | 0, i =>
      ([PollEvent.fetch i, PollEvent.check i],
        if f i ∈ completed_states then some (f i, i) else none)
  | fuel + 1, i =>
      if f i ∈ completed_states then
        ([PollEvent.fetch i, PollEvent.check i], some (f i, i))
      else
        (PollEvent.fetch i :: PollEvent.check i :: PollEvent.sleep ::
           (pollLoop f fuel (i + 1)).1,
         (pollLoop f fuel (i + 1)).2)

/-- The function `check_status(job_name, wait)` of `check_status.py` lines 42-89,
abstracted over the stream of states the service reports.  With
`wait = false` there is a single fetch (line 61) and the state is
returned as-is; with `wait = true` the polling loop runs. -/
def check_status (f : Nat → String) (wait : Bool) (fuel : Nat) :
    List PollEvent × Option (String × Nat) :=
  if wait then pollLoop f fuel 0
  else ([PollEvent.fetch 0], some (f 0, 0))

/-- If the polling loop returned `(s, k)`, then `s` is the k-th fetched
state, it is terminal, and every earlier fetched state was non-terminal. -/
theorem pollLoop_spec (f : Nat → String) :
    ∀ fuel i s k, (pollLoop f fuel i).2 = some (s, k) →
      s = f k ∧ s ∈ completed_states ∧ i ≤ k ∧
        ∀ j, i ≤ j → j < k → f j ∉ completed_states := by
  intro fuel
  induction fuel with
  | zero =>
      intro i s k h
      simp only [pollLoop] at h
      by_cases hm : f i ∈ completed_states
      · rw [if_pos hm] at h
        obtain ⟨hs, hk⟩ := Prod.mk.injEq .. ▸ Option.some.injEq .. ▸ h
        subst hk
        exact ⟨hs.symm ▸ rfl, hs ▸ hm, le_refl i, fun j hij hji => absurd hji (by omega)⟩
      · rw [if_neg hm] at h
        exact absurd h (by simp)
  | succ fuel ih =>
      intro i s k h
      simp only [pollLoop] at h
      by_cases hm : f i ∈ completed_states
      · rw [if_pos hm] at h
        obtain ⟨hs, hk⟩ := Prod.mk.injEq .. ▸ Option.some.injEq .. ▸ h
        subst hk
        exact ⟨hs.symm ▸ rfl, hs ▸ hm, le_refl i, fun j hij hji => absurd hji (by omega)⟩
      · rw [if_neg hm] at h
        obtain ⟨hs, hmem, hik, hbefore⟩ := ih (i + 1) s k h
        refine ⟨hs, hmem, by omega, fun j hij hji => ?_⟩
        rcases Nat.eq_or_lt_of_le hij with heq | hlt
        · exact heq ▸ hm
        · exact hbefore j hlt hji

/-- If every state the service ever reports is outside the terminal set,
the polling loop never returns (it exhausts any amount of fuel). -/
theorem pollLoop_none (f : Nat → String) (h : ∀ i, f i ∉ completed_states) :
    ∀ fuel i, (pollLoop f fuel i).2 = none := by
  intro fuel
  induction fuel with
  | zero => intro i; simp [pollLoop, h i]
  | succ fuel ih => intro i; simp [pollLoop, h i, ih]

/-- The first event of the polling loop starting at fetch index `i` is
the fetch of state `i`. -/
theorem pollLoop_trace_head (f : Nat → String) (fuel i : Nat) :
    ((pollLoop f fuel i).1).get? 0 = some (PollEvent.fetch i) := by
  cases fuel with
  | zero => simp [pollLoop]
  | succ fuel =>
      by_cases h : f i ∈ completed_states <;> simp [pollLoop, h]

/-- Every terminal-check event in the polling trace is immediately
preceded by the fetch of the very state being checked. -/
theorem pollLoop_trace_adj (f : Nat → String) :
    ∀ fuel i n j, ((pollLoop f fuel i).1).get? n = some (PollEvent.check j) →
      1 ≤ n ∧ ((pollLoop f fuel i).1).get? (n - 1) = some (PollEvent.fetch j) := by
  intro fuel
  induction fuel with
  | zero =>
      intro i n j h
      rcases n with _ | _ | n <;> simp_all [pollLoop]
  | succ fuel ih =>
      intro i n j h
      by_cases hm : f i ∈ completed_states
      · rcases n with _ | _ | n <;> simp_all [pollLoop, hm]
      · simp only [pollLoop, if_neg hm] at h ⊢
        rcases n with _ | _ | _ | n
        · simp_all
        · simp_all
        · simp_all
        · simp only [List.get?_cons_succ] at h
          obtain ⟨h1, h2⟩ := ih (i + 1) n j h
          obtain ⟨m, rfl⟩ : ∃ m, n = m + 1 := ⟨n - 1, by omega⟩
          refine ⟨by omega, ?_⟩
          simp only [Nat.add_sub_cancel, List.get?_cons_succ]
          simpa using h2

/-- Every sleep event in the polling trace is immediately followed by a
fresh fetch. -/
theorem pollLoop_trace_sleep (f : Nat → String) :
    ∀ fuel i n, ((pollLoop f fuel i).1).get? n = some PollEvent.sleep →
      ∃ j, ((pollLoop f fuel i).1).get? (n + 1) = some (PollEvent.fetch j) := by
  intro fuel
  induction fuel with
  | zero =>
      intro i n h
      rcases n with _ | _ | n <;> simp_all [pollLoop]
  | succ fuel ih =>
      intro i n h
      by_cases hm : f i ∈ completed_states
      · rcases n with _ | _ | n <;> simp_all [pollLoop, hm]
      · simp only [pollLoop, if_neg hm] at h ⊢
        rcases n with _ | _ | _ | n
        · simp_all
        · simp_all
        · exact ⟨i + 1, by simpa using pollLoop_trace_head f fuel (i + 1)⟩
        · simp only [List.get?_cons_succ] at h ⊢
          exact ih (i + 1) n h

/-- A state stream reporting an unrecognized value twice, then a
terminal state. -/
def streamWeirdThenDone : Nat → String :=
  fun i => if 2 ≤ i then "JOB_STATE_SUCCEEDED" else "JOB_STATE_WEIRD"

/-- A state stream forever reporting the non-terminal running state. -/
def streamAlwaysRunning : Nat → String :=
  fun _ => "JOB_STATE_RUNNING"

/-- A state stream whose very first report is already terminal. -/
def streamAlwaysFailed : Nat → String :=
  fun _ => "JOB_STATE_FAILED"

/-- C1: `check_status` with `wait = true` treats exactly the closed set
{SUCCEEDED, FAILED, CANCELLED, EXPIRED} as terminal: it returns only
when the most recently fetched state is in that set, every earlier
fetched state (any other value, recognized or not, included) having kept
the loop polling; and if no fetched state is ever in the set it never
returns. -/
theorem check_status_wait_only_terminal (f : Nat → String) (fuel : Nat) :
    (∀ s k, (check_status f true fuel).2 = some (s, k) →
        s ∈ completed_states ∧ s = f k ∧
          ∀ j, j < k → f j ∉ completed_states) ∧
    ((∀ i, f i ∉ completed_states) → (check_status f true fuel).2 = none) := by
  constructor
  · intro s k h
    have h' : (pollLoop f fuel 0).2 = some (s, k) := by
      simpa [check_status] using h
    obtain ⟨hs, hmem, _, hbefore⟩ := pollLoop_spec f fuel 0 s k h'
    exact ⟨hmem, hs, fun j hj => hbefore j (Nat.zero_le j) hj⟩
  · intro hall
    simpa [check_status] using pollLoop_none f hall fuel 0

theorem check_status_wait_only_terminal_witness :
    ("JOB_STATE_SUCCEEDED" ∈ completed_states ∧
      "JOB_STATE_SUCCEEDED" = streamWeirdThenDone 2 ∧
      ∀ j, j < 2 → streamWeirdThenDone j ∉ completed_states) ∧
    (check_status streamAlwaysRunning true 3).2 = none := by
  constructor
  · exact (check_status_wait_only_terminal streamWeirdThenDone 5).1
      ("JOB_STATE_SUCCEEDED") 2 (by decide)
  · exact (check_status_wait_only_terminal streamAlwaysRunning 3).2
      (fun i => by show ("JOB_STATE_RUNNING") ∉ completed_states; decide)

/-- C2: if the first fetched state is already terminal, `check_status`
with `wait = true` returns it after exactly the one initial fetch and
one terminal check — zero sleeps and zero additional fetches. -/
theorem check_status_wait_immediate (f : Nat → String) (fuel : Nat)
    (h : f 0 ∈ completed_states) :
    check_status f true fuel =
      ([PollEvent.fetch 0, PollEvent.check 0], some (f 0, 0)) := by
  cases fuel with
  | zero => simp [check_status, pollLoop, h]
  | succ fuel => simp [check_status, pollLoop, h]

theorem check_status_wait_immediate_witness :
    check_status streamAlwaysFailed true 4 =
      ([PollEvent.fetch 0, PollEvent.check 0],
        some (streamAlwaysFailed 0, 0)) :=
  check_status_wait_immediate streamAlwaysFailed 4 (by decide)

/-- C3: in the trace of `check_status` with `wait = true`, every
terminal check on the j-th state is immediately preceded by the fetch of
that very state, and every sleep is immediately followed by a fresh
fetch: the terminal check is never evaluated on a state value older than
the last fetch. -/
theorem check_status_wait_fresh_fetch (f : Nat → String) (fuel : Nat) :
    (∀ n j, ((check_status f true fuel).1).get? n = some (PollEvent.check j) →
        1 ≤ n ∧ ((check_status f true fuel).1).get? (n - 1) =
          some (PollEvent.fetch j)) ∧
    (∀ n, ((check_status f true fuel).1).get? n = some PollEvent.sleep →
        ∃ j, ((check_status f true fuel).1).get? (n + 1) =
          some (PollEvent.fetch j)) := by
  have e : check_status f true fuel = pollLoop f fuel 0 := by
    simp [check_status]
  rw [e]
  exact ⟨pollLoop_trace_adj f fuel 0, pollLoop_trace_sleep f fuel 0⟩

theorem check_status_wait_fresh_fetch_witness :
    (1 ≤ 4 ∧ ((check_status streamWeirdThenDone true 5).1).get? (4 - 1) =
        some (PollEvent.fetch 1)) ∧
    (∃ j, ((check_status streamWeirdThenDone true 5).1).get? (2 + 1) =
        some (PollEvent.fetch j)) := by
  constructor
  · exact (check_status_wait_fresh_fetch streamWeirdThenDone 5).1 4 1 (by decide)
  · exact (check_status_wait_fresh_fetch streamWeirdThenDone 5).2 2 (by decide)

/-! ## get_results.py -/

/-- A response payload: `text` is the value of its `text`
field/attribute when one is present, `asStr` its `str(...)` rendering
used as the fallback. -/
structure RespPayload where
  text : Option String
  asStr : String
  deriving DecidableEq, Repr

/-- The expression `result["response"].get("text", str(result["response"]))` of
`get_results.py` line 87; also the try/except AttributeError fallback of
lines 99-102, which produces the same value. -/
def respText (r : RespPayload) : String :=
  r.text.getD r.asStr

/-- The parse of one line of a downloaded JSONL result artifact
(fields `key`, `response`, `error`, each `none` when absent). -/
structure ResultRecord where
  key : Option String
  response : Option RespPayload
  error : Option String
  deriving DecidableEq, Repr

/-- One line of the downloaded artifact: a successfully parsed JSON
object, or a line on which `json.loads` raises JSONDecodeError. -/
inductive ResultLine where
  | ok (r : ResultRecord)
  | bad (raw : String)
  deriving DecidableEq, Repr

/-- One element of `batch_job.dest.inlined_responses`: a field is
`some` exactly when the attribute is present and truthy. -/
structure InlineResp where
  response : Option RespPayload
  error : Option String
  deriving DecidableEq, Repr

/-- The destination object `batch_job.dest`: a field is `none` when the attribute is absent
(or `None`, which behaves identically at every use site). -/
structure BatchDest where
  file_name : Option String
  inlined_responses : Option (List InlineResp)
  deriving DecidableEq, Repr

/-- The job object returned by `client.batches.get`, as `get_results.py`
uses it. -/
structure BatchJob where
  state : StateRepr
  dest : Option BatchDest
  deriving DecidableEq, Repr

/-- The condition `batch_job.dest and hasattr(batch_job.dest, "file_name") and
batch_job.dest.file_name` (lines 65-69), given that `dest` is already
known truthy: the attribute exists and its value is a non-empty
string. -/
def fileNameTruthy (d : BatchDest) : Bool :=
  match d.file_name with
  | some s => !(s == "")
  | none => false

/-- The environment's model of `client.files.download` composed with
UTF-8 decoding and the `json.loads` of each line of
`content.strip().split("\n")`: the raw decoded text together with the
parse of each of its lines. -/
structure FileData where
  raw : String
  lines : List ResultLine

/-- Printing of one parsed line of the downloaded result artifact,
`get_results.py` lines 82-90: the key is always printed; a `Response:`
line is printed only when a `response` field is present; a line that
fails JSON parsing prints its truncated raw text.  No branch of this
loop inspects an `error` field. -/
def printFileLine : ResultLine → List String
  | ResultLine.ok r =>
      ("  Key: " ++ r.key.getD ("N/A")) ::
        (match r.response with
         | some resp => ["  Response: " ++ (respText resp).take 200 ++ "..."]
         | none => [])
  | ResultLine.bad raw => ["  " ++ raw.take 200 ++ "..."]

/-- Printing of the i-th inline response, `get_results.py` lines
96-104: a numbered header, then the response text (with the `str(...)`
fallback on AttributeError) when a truthy `response` is present,
otherwise an `Error:` line when a truthy `error` is present, otherwise
nothing further. -/
def printInlineResp (i : Nat) (resp : InlineResp) : List String :=
  ("\nResponse " ++ toString (i + 1) ++ ":") ::
    (match resp.response with
     | some r => [respText r]
     | none =>
        match resp.error with
        | some e => ["Error: " ++ e]
        | none => [])

/-- Observable side effects of `get_results`: the single
`client.batches.get` read, a `client.files.download`, a write of the
output file, and a `time.sleep` (the constructor exists so that the
absence of polling is expressible; `get_results` never emits it). -/
inductive FetchEffect where
  | batchesGet
  | download (file : String)
  | writeFile (path : String)
  | sleep
  deriving DecidableEq, Repr

/-- The observable outcome of a `get_results` invocation: its effect
trace, the lines it printed, and its return value. -/
structure GetResultsOut where
  effects : List FetchEffect
  printed : List String
  ret : Option String
  deriving DecidableEq, Repr

/-- The function `get_results(job_name, output)` of `get_results.py` lines 42-107,
abstracted over the job returned by the single `client.batches.get`
call and over the downloaded file data.  The inline branch and the
no-results branch fall off the end of the Python function and so return
`None`. -/
def get_results (job : BatchJob) (fileData : String → FileData)
    (output : Option String) : GetResultsOut :=
  let state := normalizeState job.state
  if state ≠ "JOB_STATE_SUCCEEDED" then
    { effects := [FetchEffect.batchesGet],
      printed := ["Warning: Job is not completed. State: " ++ state],
      ret := none }
  else
    match job.dest with
    | some d =>
        if fileNameTruthy d then
          let fname := d.file_name.getD ("")
          let fd := fileData fname
          match output with
          | some out =>
              { effects := [FetchEffect.batchesGet, FetchEffect.download fname,
                  FetchEffect.writeFile out],
                printed := ["Downloading results from: " ++ fname,
                  "Results saved to " ++ out],
                ret := some fd.raw }
          | none =>
              { effects := [FetchEffect.batchesGet, FetchEffect.download fname],
                printed := ("Downloading results from: " ++ fname) :: "Results:" ::
                  (fd.lines.map printFileLine).flatten,
                ret := some fd.raw }
        else if d.inlined_responses.isSome then
          { effects := [FetchEffect.batchesGet],
            printed := "Inline Results:" ::
              (((d.inlined_responses.getD []).enum.map
                  (fun p => printInlineResp p.1 p.2)).flatten),
            ret := none }
        else
          { effects := [FetchEffect.batchesGet],
            printed := ["No results found."],
            ret := none }
    | none =>
        { effects := [FetchEffect.batchesGet],
          printed := ["No results found."],
          ret := none }

/-- C6: the normalization applied after every job read maps an enum-like
wrapper carrying name `s` and the bare string `s` to the same canonical
string token. -/
theorem normalizeState_wrapper_eq_bare (s : String) :
    normalizeState (StateRepr.enumLike s) = normalizeState (StateRepr.bare s) :=
  rfl

/-- C4: on a job whose normalized state is not SUCCEEDED, `get_results`
prints exactly one warning naming that state, returns `none`, and
performs the single status read — no download, no file write, no
sleep — raising no exception. -/
theorem get_results_not_succeeded (job : BatchJob)
    (fileData : String → FileData) (output : Option String)
    (h : normalizeState job.state ≠ "JOB_STATE_SUCCEEDED") :
    get_results job fileData output =
      { effects := [FetchEffect.batchesGet],
        printed := ["Warning: Job is not completed. State: " ++
          normalizeState job.state],
        ret := none } := by
  simp [get_results, h]

/-- A job stuck in the pending state, with no destination. -/
def pendingJob : BatchJob :=
  { state := StateRepr.bare "JOB_STATE_PENDING", dest := none }

/-- A file-data environment with an empty artifact everywhere. -/
def emptyFileData : String → FileData :=
  fun _ => { raw := "", lines := [] }

theorem get_results_not_succeeded_witness :
    get_results pendingJob emptyFileData none =
      { effects := [FetchEffect.batchesGet],
        printed := ["Warning: Job is not completed. State: " ++
          normalizeState pendingJob.state],
        ret := none } :=
  get_results_not_succeeded pendingJob emptyFileData none (by decide)

/-- C8: whatever the job, its state, the downloadable data and the
output option, `get_results` performs exactly one `batches.get` status
read and never sleeps: it neither re-invokes status polling nor silently
sleep-and-retries. -/
theorem get_results_no_polling (job : BatchJob)
    (fileData : String → FileData) (output : Option String) :
    (get_results job fileData output).effects.count FetchEffect.batchesGet = 1 ∧
    FetchEffect.sleep ∉ (get_results job fileData output).effects := by
  unfold get_results
  by_cases h : normalizeState job.state ≠ "JOB_STATE_SUCCEEDED"
  · simp [h]
  · rcases job.dest with _ | d
    · simp [h]
    · by_cases hf : fileNameTruthy d
      · rcases output with _ | out
        · simp [h, hf, List.count_cons]
        · simp [h, hf, List.count_cons]
      · by_cases hi : d.inlined_responses.isSome
        · simp [h, hf, hi]
        · simp [h, hf, hi]

/-- A destination satisfies `fileNameTruthy` exactly when it carries a
non-empty file name. -/
theorem fileNameTruthy_iff (d : BatchDest) :
    fileNameTruthy d = true ↔ ∃ s, d.file_name = some s ∧ s ≠ "" := by
  unfold fileNameTruthy
  rcases d.file_name with _ | s
  · simp
  · simp

/-- C9: on a succeeded job delivering results inline (`dest` present, no
truthy results-file name, `inlined_responses` attribute present),
`get_results` prints the records under the inline header yet returns
`none`; conversely a non-`none` return value arises only when the
destination carries a non-empty results-file name, i.e. from the
downloaded-file branch. -/
theorem get_results_inline_returns_none (job : BatchJob)
    (fileData : String → FileData) (output : Option String) :
    (∀ d rs, normalizeState job.state = "JOB_STATE_SUCCEEDED" →
        job.dest = some d → fileNameTruthy d = false →
        d.inlined_responses = some rs →
        (get_results job fileData output).ret = none ∧
        (get_results job fileData output).printed =
          "Inline Results:" ::
            ((rs.enum.map (fun p => printInlineResp p.1 p.2)).flatten)) ∧
    (∀ c, (get_results job fileData output).ret = some c →
        ∃ d s, job.dest = some d ∧ d.file_name = some s ∧ s ≠ "") := by
  constructor
  · intro d rs hst hdest hfn hinl
    have hne : ¬ normalizeState job.state ≠ "JOB_STATE_SUCCEEDED" := by
      simp [hst]
    simp [get_results, hne, hdest, hfn, hinl]
  · intro c hret
    unfold get_results at hret
    by_cases h : normalizeState job.state ≠ "JOB_STATE_SUCCEEDED"
    · simp [h] at hret
    · rcases hd : job.dest with _ | d
      · simp [h, hd] at hret
      · by_cases hf : fileNameTruthy d
        · obtain ⟨s, hs, hne⟩ := (fileNameTruthy_iff d).1 hf
          exact ⟨d, s, rfl, hs, hne⟩
        · by_cases hi : d.inlined_responses.isSome
          · simp [h, hd, hf, hi] at hret
          · simp [h, hd, hf, hi] at hret

/-- An inline response carrying only a per-record error. -/
def inlineErrResp : InlineResp :=
  { response := none, error := some "quota exceeded" }

/-- An inline response carrying a successful response payload. -/
def inlineOkResp : InlineResp :=
  { response := some { text := some "hello", asStr := "hello" },
    error := none }

/-- A destination delivering the two inline responses above. -/
def inlineDest : BatchDest :=
  { file_name := none,
    inlined_responses := some [inlineErrResp, inlineOkResp] }

/-- A succeeded job delivering two inline responses, the first of which
failed. -/
def inlineJob : BatchJob :=
  { state := StateRepr.enumLike "JOB_STATE_SUCCEEDED",
    dest := some inlineDest }

theorem get_results_inline_returns_none_witness :
    (get_results inlineJob emptyFileData none).ret = none ∧
    (get_results inlineJob emptyFileData none).printed =
      "Inline Results:" ::
        (([inlineErrResp, inlineOkResp].enum.map
            (fun p => printInlineResp p.1 p.2)).flatten) :=
  (get_results_inline_returns_none inlineJob emptyFileData none).1
    inlineDest [inlineErrResp, inlineOkResp]
    (by decide) (by decide) (by decide) (by decide)

/-- Whether a block of printed lines flags its record as an error, i.e.
contains an `Error:`-prefixed line as the inline branch emits (prefix
compared character-wise). -/
def flaggedAsError (out : List String) : Bool :=
  out.any (fun s => ("Error: ").data.isPrefixOf s.data)

/-- A parsed artifact record carrying a per-record error, no response. -/
def errRecord : ResultRecord :=
  { key := some "req-1", response := none, error := some "quota exceeded" }

/-- A parsed artifact line wrapping `errRecord`. -/
def errRecordLine : ResultLine := ResultLine.ok errRecord

/-- A parsed artifact record carrying a successful response. -/
def okRecord : ResultRecord :=
  { key := some "req-2",
    response := some { text := some "hi", asStr := "hi" },
    error := none }

/-- A parsed artifact line wrapping `okRecord`. -/
def okRecordLine : ResultLine := ResultLine.ok okRecord

/-- A destination carrying a results file. -/
def fileDest : BatchDest :=
  { file_name := some "results.jsonl", inlined_responses := none }

/-- A succeeded job whose results live in a downloaded file. -/
def fileJob : BatchJob :=
  { state := StateRepr.bare "JOB_STATE_SUCCEEDED", dest := some fileDest }

/-- File data whose two-line artifact has an error record on line 1 and
a success record on line 2. -/
def errFileData : String → FileData :=
  fun _ => { raw := "raw-content", lines := [errRecordLine, okRecordLine] }

set_option maxRecDepth 8000 in
/-- C5 counterexample: on a succeeded job whose downloaded two-line
artifact carries an `error` field on line 1 and a `response` on line 2,
the downloaded-file branch of `get_results` prints both records, but the
error record's block is just its key line — it is not flagged as an
error, contrary to the claim that record k is flagged as an error in
both branches. -/
theorem get_results_file_error_not_flagged :
    (get_results fileJob errFileData none).printed =
      "Downloading results from: results.jsonl" :: "Results:" ::
        (printFileLine errRecordLine ++ printFileLine okRecordLine) ∧
    printFileLine errRecordLine = ["  Key: req-1"] ∧
    flaggedAsError (printFileLine errRecordLine) = false := by
  decide

/-- C5 (corrected): both result-printing loops of `get_results` process
all records with no early termination — the k-th output block is
determined by the k-th record alone.  In the inline branch a record
carrying only an error is flagged with an `Error:` line and a record
carrying a response prints its text; in the downloaded-file branch every
parsed record prints its key, a `Response:` line is printed exactly for
records carrying a `response` field, and a record carrying only an
`error` field contributes just its key line, unflagged. -/
theorem batch_results_no_early_termination (ls : List ResultLine)
    (rs : List InlineResp) :
    ((ls.map printFileLine).length = ls.length ∧
      (∀ k l, ls.get? k = some l →
        (ls.map printFileLine).get? k = some (printFileLine l)) ∧
      (∀ k r, ls.get? k = some (ResultLine.ok r) →
        ("  Key: " ++ r.key.getD ("N/A")) ∈ printFileLine (ResultLine.ok r) ∧
        (∀ p, r.response = some p →
          ("  Response: " ++ (respText p).take 200 ++ "...") ∈
            printFileLine (ResultLine.ok r)) ∧
        (r.response = none →
          printFileLine (ResultLine.ok r) =
            ["  Key: " ++ r.key.getD ("N/A")]))) ∧
    ((rs.enum.map (fun p => printInlineResp p.1 p.2)).length = rs.length ∧
      (∀ i r, rs.get? i = some r →
        (rs.enum.map (fun p => printInlineResp p.1 p.2)).get? i =
          some (printInlineResp i r)) ∧
      (∀ i r e, rs.get? i = some r → r.response = none → r.error = some e →
        ("Error: " ++ e) ∈ printInlineResp i r) ∧
      (∀ i r p, rs.get? i = some r → r.response = some p →
        respText p ∈ printInlineResp i r)) := by
  refine ⟨⟨by simp, ?_, ?_⟩, ⟨by simp [List.enum_length], ?_, ?_, ?_⟩⟩
  · intro k l hk
    rw [List.get?_map, hk]
    rfl
  · intro k r _
    refine ⟨?_, ?_, ?_⟩
    · rcases hr : r.response with _ | p <;> simp [printFileLine, hr]
    · intro p hp
      simp [printFileLine, hp]
    · intro hp
      simp [printFileLine, hp]
  · intro i r hi
    rw [List.get?_map, List.get?_enum, hi]
    rfl
  · intro i r e _ hresp herr
    simp [printInlineResp, hresp, herr]
  · intro i r p _ hresp
    simp [printInlineResp, hresp]

theorem batch_results_no_early_termination_witness :
    ("Error: " ++ "quota exceeded") ∈ printInlineResp 0 inlineErrResp ∧
    printFileLine (ResultLine.ok errRecord) =
      ["  Key: " ++ errRecord.key.getD ("N/A")] := by
  constructor
  · exact (batch_results_no_early_termination [errRecordLine, okRecordLine]
      [inlineErrResp, inlineOkResp]).2.2.2.1 0 inlineErrResp
      ("quota exceeded") (by decide) (by decide) (by decide)
  · exact ((batch_results_no_early_termination [errRecordLine, okRecordLine]
      [inlineErrResp, inlineOkResp]).1.2.2 0 errRecord (by decide)).2.2
      (by decide)

/-! ## create_batch.py -/

/-- Network calls of `create_batch.py`: the `client.files.upload` call
(with the display name from its `UploadFileConfig`) and the
`client.batches.create` call (model, source handle, display name of its
config). -/
inductive CreateEffect where
  | upload (file : String) (displayName : String)
  | createJob (model : String) (src : String) (displayName : String)
  deriving DecidableEq, Repr

/-- The function `create_batch_job(input_file, model, display_name)` of
`create_batch.py` lines 43-87, abstracted over the local file system
(`fs p = true` iff `Path(p).exists()`), the `Path(...).stem` function,
the name the service assigns to the uploaded file and the name it
assigns to the created job.  `Except.error` models printing the error
message and calling `sys.exit(1)`; the first component is the trace of
network calls, in order. -/
def create_batch_job (fs : String → Bool) (stem : String → String)
    (uploadedName jobName : String) (input_file : String)
    (model : String) (display_name : Option String) :
    List CreateEffect × Except String String :=
  if fs input_file then
    ([CreateEffect.upload input_file (display_name.getD (stem input_file)),
      CreateEffect.createJob model uploadedName
        (display_name.getD ("batch-" ++ stem input_file))],
     Except.ok jobName)
  else
    ([], Except.error ("Error: File not found: " ++ input_file))

/-- C7: when the input path does not refer to an existing file,
`create_batch_job` fails with the file-not-found error and its network
trace is empty: no upload and no job creation is attempted. -/
theorem create_batch_job_missing_file (fs : String → Bool)
    (stem : String → String) (uploadedName jobName input_file model : String)
    (display_name : Option String) (h : fs input_file = false) :
    create_batch_job fs stem uploadedName jobName input_file model
        display_name =
      ([], Except.error ("Error: File not found: " ++ input_file)) := by
  simp [create_batch_job, h]

theorem create_batch_job_missing_file_witness :
    create_batch_job (fun _ => false) (fun _ => "requests") ("files/f1")
        ("batches/j1") ("requests.jsonl") ("gemini-3-flash-preview") none =
      ([], Except.error ("Error: File not found: " ++ "requests.jsonl")) :=
  create_batch_job_missing_file (fun _ => false) (fun _ => "requests")
    ("files/f1") ("batches/j1") ("requests.jsonl") ("gemini-3-flash-preview")
    none rfl

/-! ## tts.py -/

/-- Python dict assignment `speakers[name] = voice` on an
insertion-ordered association list: an existing key keeps its position
and receives the new value, a new key is appended at the end. -/
def dictInsert (m : List (String × String)) (k v : String) :
    List (String × String) :=
  if m.any (fun p => p.1 == k) then
    m.map (fun p => if p.1 = k then (k, v) else p)
  else
    m ++ [(k, v)]

/-- The function `parse_speakers(speakers_str)` of `tts.py` lines 157-164: split on
commas; for each segment containing a colon (`":" in pair`), split at
the first colon (`pair.split(":", 1)`), strip both halves, and assign
into the dict; segments without a colon are skipped.  `String.splitOn`
returns the segment unsplit (a one-element list) exactly when it
contains no colon, and joining the tail back with colons recovers
everything after the first colon.  This is the loop body, one iteration
of `for pair in speakers_str.split(",")`. -/
def parseSpeakerStep (speakers : List (String × String)) (pair : String) :
    List (String × String) :=
  match pair.splitOn (":") with
  | [] => speakers
  | [_] => speakers
  | name :: rest =>
      dictInsert speakers name.trim ((":").intercalate rest).trim

/-- The fold over `speakers_str.split(",")` with the loop body above,
starting from the empty dict. -/
def parse_speakers (speakers_str : String) : List (String × String) :=
  (speakers_str.splitOn (",")).foldl parseSpeakerStep []

/-- Modelled from the claim's wording, for comparison with
`parse_speakers`: the comma-separated segments that contain a colon,
each split at its first colon into a stripped name and a stripped voice,
in segment order and with duplicates kept. -/
def segParse (pair : String) : Option (String × String) :=
  match pair.splitOn (":") with
  | [] => none
  | [_] => none
  | name :: rest => some (name.trim, ((":").intercalate rest).trim)

/-- The segment entries of a speaker string, in order. -/
def segEntries (speakers_str : String) : List (String × String) :=
  (speakers_str.splitOn (",")).filterMap segParse


/-- Replacing the entries keyed `a` leaves lookups of other keys
unchanged. -/
theorem lookup_map_replace_ne (m : List (String × String)) (k a v : String)
    (hk : k ≠ a) :
    List.lookup k (m.map (fun p => if p.1 = a then (a, v) else p)) =
      List.lookup k m := by
  induction m with
  | nil => simp
  | cons p t ih =>
      rcases p with ⟨x, y⟩
      by_cases hx : x = a
      · subst hx
        have h1 : (k == x) = false := by simpa using hk
        simp [List.lookup_cons, h1, ih]
      · by_cases hkx : k = x
        · subst hkx
          simp [List.lookup_cons, hx]
        · have h1 : (k == x) = false := by simpa using hkx
          simp [List.lookup_cons, hx, h1, ih]

/-- Replacing the entries keyed `a` makes a lookup of `a` yield the new
value, provided some entry was keyed `a`. -/
theorem lookup_map_replace_self (m : List (String × String)) (a v : String)
    (hmem : m.any (fun p => p.1 == a) = true) :
    List.lookup a (m.map (fun p => if p.1 = a then (a, v) else p)) =
      some v := by
  induction m with
  | nil => simp at hmem
  | cons p t ih =>
      rcases p with ⟨x, y⟩
      by_cases hx : x = a
      · subst hx
        simp [List.lookup_cons]
      · have h1 : (x == a) = false := by simpa using hx
        have h2 : (a == x) = false := by
          simpa using fun h => hx h.symm
        have hmem' : t.any (fun p => p.1 == a) = true := by
          simpa [h1] using hmem
        simp [List.lookup_cons, hx, h2, ih hmem']

/-- Appending a fresh entry: the new key looks up to the new value,
other keys are untouched. -/
theorem lookup_append_fresh (m : List (String × String)) (k a v : String)
    (hmem : m.any (fun p => p.1 == a) = false) :
    List.lookup k (m ++ [(a, v)]) =
      if k = a then some v else List.lookup k m := by
  induction m with
  | nil =>
      by_cases hk : k = a
      · simp [List.lookup_cons, hk]
      · have h1 : (k == a) = false := by simpa using hk
        simp [List.lookup_cons, hk, h1]
  | cons p t ih =>
      rcases p with ⟨x, y⟩
      obtain ⟨hx, hmem'⟩ :
          (x == a) = false ∧ t.any (fun p => p.1 == a) = false := by
        simpa only [List.any_cons, Bool.or_eq_false_iff] using hmem
      by_cases hkx : k = x
      · have hxa : ¬ x = a := by simpa using hx
        have hka : ¬ k = a := by rw [hkx]; exact hxa
        have h1 : (k == x) = true := by simpa using hkx
        simp [List.lookup_cons, h1, hka]
      · have h1 : (k == x) = false := by simpa using hkx
        simp [List.lookup_cons, h1, ih hmem']

/-- Looking a key up after a dict assignment: the assigned key maps to
the new value, other keys are untouched. -/
theorem lookup_dictInsert (m : List (String × String)) (k a v : String) :
    List.lookup k (dictInsert m a v) =
      if k = a then some v else List.lookup k m := by
  unfold dictInsert
  by_cases hext : m.any (fun p => p.1 == a) = true
  · rw [if_pos hext]
    by_cases hk : k = a
    · subst hk
      simp [lookup_map_replace_self m k v hext]
    · simp [hk, lookup_map_replace_ne m k a v hk]
  · rw [if_neg hext]
    have hf : m.any (fun p => p.1 == a) = false := by
      cases hb : m.any (fun p => p.1 == a)
      · rfl
      · exact absurd hb hext
    exact lookup_append_fresh m k a v hf

/-- One loop iteration, re-expressed through `segParse`. -/
theorem parseSpeakerStep_eq (m : List (String × String)) (pair : String) :
    parseSpeakerStep m pair =
      match segParse pair with
      | none => m
      | some p => dictInsert m p.1 p.2 := by
  unfold parseSpeakerStep segParse
  rcases hsp : pair.splitOn (":") with _ | ⟨a, _ | ⟨b, r⟩⟩ <;> rfl

/-- Lookup distributes over list append as a left-biased choice. -/
theorem lookup_append_or (l₁ l₂ : List (String × String)) (k : String) :
    List.lookup k (l₁ ++ l₂) = (List.lookup k l₁).or (List.lookup k l₂) := by
  induction l₁ with
  | nil => rfl
  | cons p t ih =>
      rcases p with ⟨x, y⟩
      by_cases hk : k == x
      · simp [List.lookup_cons, hk]
      · have h1 : (k == x) = false := by
          cases hb : k == x
          · rfl
          · exact absurd hb hk
        simp [List.lookup_cons, h1, ih]

/-- Looking up a key in the dict built by the speaker fold: the last
parsed segment entry with that key wins, falling back to the initial
dict. -/
theorem lookup_parse_fold (l : List String) :
    ∀ (m : List (String × String)) (k : String),
      List.lookup k (l.foldl parseSpeakerStep m) =
        (List.lookup k (l.filterMap segParse).reverse).or
          (List.lookup k m) := by
  induction l with
  | nil => intro m k; rfl
  | cons pair t ih =>
      intro m k
      rw [List.foldl_cons, List.filterMap_cons, parseSpeakerStep_eq]
      cases hp : segParse pair with
      | none =>
          simp only [hp]
          exact ih m k
      | some p =>
          simp only [hp]
          rw [ih (dictInsert m p.1 p.2) k, lookup_dictInsert,
            List.reverse_cons, lookup_append_or, Option.or_assoc]
          congr 1
          rcases p with ⟨a, b⟩
          by_cases hk : k = a
          · have h1 : (k == a) = true := by simpa using hk
            simp [List.lookup_cons, h1, hk]
          · have h1 : (k == a) = false := by simpa using hk
            simp [List.lookup_cons, h1, hk]

/-- A dict assignment grows the dict by at most one entry. -/
theorem dictInsert_length (m : List (String × String)) (k v : String) :
    (dictInsert m k v).length ≤ m.length + 1 := by
  unfold dictInsert
  by_cases h : m.any (fun p => p.1 == k) = true
  · rw [if_pos h]
    simp only [List.length_map]
    omega
  · rw [if_neg h]
    simp

/-- The speaker fold produces at most one dict entry per segment. -/
theorem parse_fold_length (l : List String) :
    ∀ m, (l.foldl parseSpeakerStep m).length ≤ m.length + l.length := by
  induction l with
  | nil => intro m; simp
  | cons pair t ih =>
      intro m
      rw [List.foldl_cons, parseSpeakerStep_eq]
      cases hp : segParse pair with
      | none =>
          simp only [hp]
          have := ih m
          simp only [List.length_cons]
          omega
      | some p =>
          simp only [hp, List.length_cons]
          have h1 := ih (dictInsert m p.1 p.2)
          have h2 := dictInsert_length m p.1 p.2
          omega

/-- C10: `parse_speakers` splits its input on commas and keeps exactly
the segments containing a colon (segments without one are silently
dropped), splitting each kept segment at its first colon into a
whitespace-stripped speaker name and voice; when a name recurs, the last
occurrence's voice wins (lookups agree with the reversed segment-entry
list); and the result never has more entries than comma-separated
segments. -/
theorem parse_speakers_spec (speakers_str k : String) :
    List.lookup k (parse_speakers speakers_str) =
      List.lookup k (segEntries speakers_str).reverse ∧
    (parse_speakers speakers_str).length ≤
      (speakers_str.splitOn (",")).length := by
  constructor
  · unfold parse_speakers segEntries
    rw [lookup_parse_fold]
    cases List.lookup k
        ((speakers_str.splitOn (",")).filterMap segParse).reverse <;> rfl
  · have h1 := parse_fold_length (speakers_str.splitOn (",")) []
    simpa [parse_speakers] using h1
